import Mathlib

/-!
Shallow embedding of the Veda-Base priority message bus
(src/app/agents/message_bus.py, src/app/agents/base.py), the batch
document-processing pipeline (src/app/core/document_processor.py) and the
websocket progress glue (src/app/api/websocket/processing_manager.py),
together with theorems settling the specification claims about them.
-/

namespace VedaBase

/-- Message types exchanged between agents
(src/app/agents/base.py, class MessageType). -/
inductive MessageType where
  | task
  | response
  | errorMsg
  | statusMsg
  | query
  | result
deriving DecidableEq

/-- Priority levels (src/app/agents/base.py, class Priority:
LOW = 1, MEDIUM = 2, HIGH = 3, CRITICAL = 4). -/
inductive Priority where
  | low
  | medium
  | high
  | critical
deriving DecidableEq

/-- The numeric value of a priority, as in the Python int enum
(message_bus.py line 121 uses message.priority.value). -/
def Priority.value : Priority → Nat
  | .low => 1
  | .medium => 2
  | .high => 3
  | .critical => 4

/-- Inter-agent message (src/app/agents/base.py, class AgentMessage).
The opaque content dict is modelled as an association list; the
datetime timestamp field is not part of any claim and is omitted. -/
structure AgentMessage where
  messageId : String
  messageType : MessageType
  sender : String
  receiver : String
  content : List (String × String)
  priority : Priority
  parentMessageId : Option String
deriving DecidableEq

/-- Priority-queue entry (src/app/agents/message_bus.py, class
MessageQueueItem).  The enqueue-time datetime.now() reading is modelled
as a natural number. -/
structure MessageQueueItem where
  message : AgentMessage
  timestamp : Nat
  priority : Nat
deriving DecidableEq

/-- Embedding of MessageQueueItem.__lt__ (message_bus.py lines 33-38):
higher priority first, FIFO by timestamp among equal priorities. -/
def MessageQueueItem.lt (a b : MessageQueueItem) : Bool :=
  if a.priority ≠ b.priority then decide (a.priority > b.priority)
  else decide (a.timestamp < b.timestamp)

/-- Extraction of a minimal element of the queue with respect to
__lt__.  asyncio.PriorityQueue.get pops the root of a heapq binary
heap — a __lt__-minimal entry.  When the entries are pairwise
comparable (no two share both priority and timestamp), __lt__ is a
strict total order, the minimal entry is unique, and the pop is fully
determined: this recursion returns exactly that entry.  When entries
are tied the heap's choice depends on the array layout; the
instruction-level heapq embedding below (heappush/heappop) is the
model used for that regime. -/
def popMin : List MessageQueueItem → Option (MessageQueueItem × List MessageQueueItem)
  | [] => none
  | x :: xs =>
    match popMin xs with
    | none => some (x, [])
    | some (m, rest) => if m.lt x then some (m, x :: rest) else some (x, xs)

/-- One pop per entry: the dispatch loop of message_bus.py
(_process_messages, lines 148-175) repeatedly takes the minimal entry
from the priority queue.  Draining a queue of n entries performs n
pops; fuel equal to the initial length makes the recursion structural
and executable. -/
def drain : Nat → List MessageQueueItem → List MessageQueueItem
  | 0, _ => []
  | fuel + 1, q =>
    match popMin q with
    | none => []
    | some (m, rest) => m :: drain fuel rest

/-- The order in which the dispatch loop delivers the entries of a
queue whose entries are pairwise comparable, obtained by repeatedly
removing the unique minimal entry. -/
def dispatchOrder (q : List MessageQueueItem) : List MessageQueueItem :=
  drain q.length q

/-- CPython heapq._siftdown: walk the new item from position pos up
toward startpos, shifting down every parent the item compares below,
and drop the item into the final hole.  The parent index (pos-1)/2
strictly decreases, so fuel pos bounds the walk exactly. -/
def siftdownLoop : Nat → Nat → Nat → List MessageQueueItem →
    MessageQueueItem → List MessageQueueItem
  | 0, _, pos, heap, newitem => heap.set pos newitem
  | fuel + 1, startpos, pos, heap, newitem =>
    if startpos < pos then
      let parentpos := (pos - 1) / 2
      match heap.get? parentpos with
      | some parent =>
        if newitem.lt parent then
          siftdownLoop fuel startpos parentpos (heap.set pos parent) newitem
        else heap.set pos newitem
      | none => heap.set pos newitem
    else heap.set pos newitem

/-- CPython heapq._siftdown entry point: reads the item at pos and
runs the walk. -/
def siftdown (heap : List MessageQueueItem) (startpos pos : Nat) :
    List MessageQueueItem :=
  match heap.get? pos with
  | some newitem => siftdownLoop pos startpos pos heap newitem
  | none => heap

/-- CPython heapq.heappush: append the item and sift it down toward
the root from the last position. -/
def heappush (heap : List MessageQueueItem) (item : MessageQueueItem) :
    List MessageQueueItem :=
  siftdown (heap ++ [item]) 0 heap.length

/-- CPython heapq._siftup main loop: walk a hole from pos to a leaf,
at each level promoting the smaller child — the right child whenever
NOT (left < right), which is where tied entries lose their enqueue
order — then place newitem in the leaf hole and sift it down toward
startpos.  The child index 2*pos+1 strictly increases and stays below
the length, so fuel heap.length bounds the walk. -/
def siftupLoop : Nat → Nat → Nat → List MessageQueueItem →
    MessageQueueItem → List MessageQueueItem
  | 0, startpos, pos, heap, newitem =>
    siftdown (heap.set pos newitem) startpos pos
  | fuel + 1, startpos, pos, heap, newitem =>
    let endpos := heap.length
    let childpos := 2 * pos + 1
    if childpos < endpos then
      let rightpos := childpos + 1
      let chosen :=
        if rightpos < endpos then
          match heap.get? childpos, heap.get? rightpos with
          | some lc, some rc => if lc.lt rc then childpos else rightpos
          | _, _ => childpos
        else childpos
      match heap.get? chosen with
      | some child =>
        siftupLoop fuel startpos chosen (heap.set pos child) newitem
      | none => siftdown (heap.set pos newitem) startpos pos
    else
      siftdown (heap.set pos newitem) startpos pos

/-- CPython heapq._siftup entry point: startpos = pos, newitem is the
item currently at pos. -/
def siftup (heap : List MessageQueueItem) (pos : Nat) :
    List MessageQueueItem :=
  match heap.get? pos with
  | some newitem => siftupLoop heap.length pos pos heap newitem
  | none => heap

/-- CPython heapq.heappop: remove the last array element; if the heap
is still non-empty, the root is returned and the last element is
placed at the root and sifted up; otherwise the last element was the
root.  An empty heap returns none (queue.get suspends instead). -/
def heappop (heap : List MessageQueueItem) :
    Option (MessageQueueItem × List MessageQueueItem) :=
  match heap.getLast? with
  | none => none
  | some lastelt =>
    let rest := heap.dropLast
    match rest.get? 0 with
    | none => some (lastelt, [])
    | some returnitem => some (returnitem, siftup (rest.set 0 lastelt) 0)

/-- Drain the heapq array by repeated heappop; fuel equal to the array
length makes the recursion structural. -/
def heapDrain : Nat → List MessageQueueItem → List MessageQueueItem
  | 0, _ => []
  | fuel + 1, heap =>
    match heappop heap with
    | none => []
    | some (m, rest) => m :: heapDrain fuel rest

/-- The heap the bus holds after enqueueing the given entries in
order: each send_message put is a heappush. -/
def heapOfEnqueues (items : List MessageQueueItem) : List MessageQueueItem :=
  items.foldl heappush []

/-- Instruction-level dispatch order: heappush each entry in enqueue
order, then heappop until empty. -/
def heapDispatchOrder (items : List MessageQueueItem) : List MessageQueueItem :=
  heapDrain items.length (heapOfEnqueues items)

/-- Concrete message used by witnesses and counterexamples. -/
def mkMsg (id sender receiver : String) (t : MessageType) (p : Priority) :
    AgentMessage :=
  { messageId := id, messageType := t, sender := sender, receiver := receiver,
    content := [], priority := p, parentMessageId := none }

/-- Concrete queue: a LOW-priority entry enqueued first (timestamp 0),
a HIGH-priority entry enqueued second (timestamp 1). -/
def qWitness : List MessageQueueItem :=
  [ { message := mkMsg "low-priority" "librarian" "curator" .task .low,
      timestamp := 0, priority := Priority.low.value },
    { message := mkMsg "high-priority" "librarian" "curator" .task .high,
      timestamp := 1, priority := Priority.high.value } ]

/-- Four MEDIUM-priority entries enqueued in one datetime.now() tick:
all four carry the same clock reading, so no pair is __lt__-comparable. -/
def qTied : List MessageQueueItem :=
  [ { message := mkMsg "m1" "librarian" "curator" .task .medium,
      timestamp := 0, priority := Priority.medium.value },
    { message := mkMsg "m2" "librarian" "curator" .task .medium,
      timestamp := 0, priority := Priority.medium.value },
    { message := mkMsg "m3" "librarian" "curator" .task .medium,
      timestamp := 0, priority := Priority.medium.value },
    { message := mkMsg "m4" "librarian" "curator" .task .medium,
      timestamp := 0, priority := Priority.medium.value } ]

/-- Mutable state of the message bus (message_bus.py, class MessageBus,
lines 40-51): the agent registry keyed by agent id, the per-type
subscription table, the priority queue and the running flag.
clockReadings is the externally determined sequence of datetime.now()
values the wall clock will return, one per call: it is an arbitrary
function, so successive readings may repeat or even decrease — nothing
in the model makes them monotone.  clockIdx counts the readings taken
so far; the uuidCounter models the uuid4 draws for messages submitted
without an id. -/
structure BusState where
  registeredAgents : List String
  subscriptions : MessageType → List String
  queue : List MessageQueueItem
  clockReadings : Nat → Nat
  clockIdx : Nat
  uuidCounter : Nat
  running : Bool

/-- Embedding of MessageBus.send_message (lines 107-125).  A message
whose receiver is falsy (empty) or not registered is logged and
dropped.  Otherwise a missing (empty) message id is replaced by a
fresh uuid, and a queue entry is created carrying the next
datetime.now() reading of the external clock and the numeric priority
value. -/
def send_message (s : BusState) (message : AgentMessage) : BusState :=
  if message.receiver = "" ∨ message.receiver ∉ s.registeredAgents then s
  else
    { s with
      queue := s.queue ++
        [{ message :=
             if message.messageId = "" then
               { message with messageId := "uuid-" ++ toString s.uuidCounter }
             else message
           timestamp := s.clockReadings s.clockIdx
           priority := message.priority.value }]
      clockIdx := s.clockIdx + 1
      uuidCounter :=
        if message.messageId = "" then s.uuidCounter + 1 else s.uuidCounter }

/-- The per-recipient clone built by MessageBus.broadcast_message
(lines 136-144): same type, sender, content, priority and parent; the
receiver is the subscriber and the id concatenates the original id, a
dash and the subscriber id. -/
def broadcastClone (message : AgentMessage) (subscriberId : String) :
    AgentMessage :=
  { messageId := message.messageId ++ "-" ++ subscriberId
    messageType := message.messageType
    sender := message.sender
    receiver := subscriberId
    content := message.content
    priority := message.priority
    parentMessageId := message.parentMessageId }

/-- Embedding of MessageBus.broadcast_message (lines 127-146): for
every subscriber of the message type, a clone is enqueued through
send_message.  Python iterates a set of subscriber ids; the model
keeps the subscription table as lists.  When there is no subscriber
the loop body never runs, matching the early return. -/
def broadcast_message (s : BusState) (message : AgentMessage) : BusState :=
  (s.subscriptions message.messageType).foldl
    (fun st subscriberId => send_message st (broadcastClone message subscriberId)) s

/-- Projection of a queue entry to the pair (receiver, message id). -/
def projEntry (e : MessageQueueItem) : String × String :=
  (e.message.receiver, e.message.messageId)

/-- The recipients actually served by one broadcast, with the ids of
their clones: every subscriber of the type that passes send_message's
receiver check, the sender not excluded. -/
def broadcastRecipients (s : BusState) (message : AgentMessage) :
    List (String × String) :=
  ((s.subscriptions message.messageType).filter
      (fun sid => decide (sid ≠ "" ∧ sid ∈ s.registeredAgents))).map
    (fun sid => (sid, message.messageId ++ "-" ++ sid))

/-- Concrete bus: the single agent "alpha" is registered and
subscribed to TASK messages. -/
def busA : BusState :=
  { registeredAgents := ["alpha"]
    subscriptions := fun t => match t with | .task => ["alpha"] | _ => []
    queue := []
    clockReadings := fun _ => 0
    clockIdx := 0
    uuidCounter := 0
    running := true }

/-- Concrete TASK message sent by "alpha" itself. -/
def msgA : AgentMessage := mkMsg "orig" "alpha" "beta" .task .medium

/-- Outcome the dispatch loop records for one queue entry
(_process_messages, lines 156-167): the receiver may be gone at
dispatch time, the handler may return, or the handler may raise. -/
inductive DeliveryOutcome where
  | receiverMissing
  | delivered
  | handlerFailed (e : String)
deriving DecidableEq

/-- A registered agent as the dispatch loop sees it: handle_message
(base.py lines 86-91) either returns or raises; a raised Python
exception is the Except error. -/
structure AgentBehavior where
  handleMessage : AgentMessage → Except String Unit

/-- The body of one dispatch iteration (lines 156-167): resolve the
receiver via registry .get; a missing receiver is logged and skipped;
the handler call sits inside try/except Exception, so a raised
exception becomes a logged outcome instead of propagating. -/
def dispatchOutcome (agents : String → Option AgentBehavior)
    (item : MessageQueueItem) : DeliveryOutcome :=
  match agents item.message.receiver with
  | none => .receiverMissing
  | some a =>
    match a.handleMessage item.message with
    | .ok _ => .delivered
    | .error e => .handlerFailed e

/-- Embedding of MessageBus._process_messages (lines 148-175) run over
a finite queue segment.  The return type admits an escaped exception
(.error would abort the remaining deliveries and surface past the
loop); the catch in dispatchOutcome is what keeps it from occurring. -/
def processMessages (agents : String → Option AgentBehavior) :
    List MessageQueueItem → Except String (List DeliveryOutcome)
  | [] => .ok []
  | item :: rest =>
    match processMessages agents rest with
    | .ok outs => .ok (dispatchOutcome agents item :: outs)
    | .error e => .error e

/-- Control location of the _process_messages coroutine.  checkRunning
is the top of the while (line 150); awaitGet is the suspension inside
queue.get() (line 153); between a successful get and the next while
check the body (lines 154-170) runs without further external input and
is folded into the awaitGet step; exited is the coroutine having
returned. -/
inductive LoopSite where
  | checkRunning
  | awaitGet
  | exited
deriving DecidableEq

/-- State of the dispatch-loop coroutine together with what it reads:
the queue contents and the _running flag (set to False by stop,
lines 62-71). -/
structure LoopState where
  site : LoopSite
  queue : List MessageQueueItem
  running : Bool
deriving DecidableEq

/-- One scheduler step of the dispatch loop.  At checkRunning the
while condition reads _running.  At awaitGet the coroutine is parked
in queue.get(): with a non-empty queue the get resolves and the body
runs through to the next while check; with an empty queue the future
resolves only when a producer puts an entry, and stop() neither puts
nor cancels the task, so no step exists (none). -/
def loopStep (s : LoopState) : Option LoopState :=
  match s.site with
  | .exited => none
  | .checkRunning =>
    if s.running then some { s with site := .awaitGet }
    else some { s with site := .exited }
  | .awaitGet =>
    match popMin s.queue with
    | none => none
    | some (_, rest) => some { s with site := .checkRunning, queue := rest }

/-- Iterated scheduler steps; a state without a step stays put. -/
def loopRun : Nat → LoopState → LoopState
  | 0, s => s
  | n + 1, s =>
    match loopStep s with
    | none => s
    | some s2 => loopRun n s2

/-- The state right after stop() sets _running := False while the
dispatch loop is parked in queue.get() on an empty queue — which is
where the loop necessarily sits whenever the bus is idle. -/
def stoppedIdleLoop : LoopState :=
  { site := .awaitGet, queue := [], running := false }

/-- Status strings of BatchProcessingStatus.status
(document_processor.py line 56: pending, processing, completed, error)
plus the cancelled string written by cancel_batch (line 605). -/
inductive BatchStatusTag where
  | pending
  | processing
  | completed
  | errorState
  | cancelled
deriving DecidableEq

/-- The Python string each tag stands for. -/
def BatchStatusTag.str : BatchStatusTag → String
  | .pending => "pending"
  | .processing => "processing"
  | .completed => "completed"
  | .errorState => "error"
  | .cancelled => "cancelled"

/-- Embedding of the dataclass BatchProcessingStatus (lines 47-63).
File names stand for Path values; the start/end datetimes are not part
of any claim and are omitted; errors is the ordered list of dicts with
keys file and error, modelled as pairs. -/
structure BatchProcessingStatus where
  batchId : String
  totalFiles : Nat
  processedFiles : Nat
  successCount : Nat
  errorCount : Nat
  currentFile : Option String
  status : BatchStatusTag
  errors : List (String × String)
deriving DecidableEq

/-- A file submitted to process_batch together with the outcome of
awaiting process_document on it: none means the extraction succeeds,
some msg means process_document raises with message msg (extraction is
the external collaborator the coordinator treats as opaque). -/
structure BatchFile where
  name : String
  result : Option String
deriving DecidableEq

/-- Control location of the per-file worker task spawned at line 525:
parked in the semaphore acquire (line 521); running with the permit
held, current_file already set (line 559), suspended in the await of
process_document (line 564); or finished with the success counters
updated (lines 566-568) or the error counters and errors updated and
the exception re-raised into the task (lines 574-584). -/
inductive WorkerState where
  | waitingSem
  | running
  | doneOk
  | doneErr
deriving DecidableEq

/-- Control location of the process_batch coroutine itself: suspended
in await asyncio.gather (line 529); returned normally with the status
marked completed (lines 532-535); or re-raising the first worker
exception out of process_batch after marking the status error
(lines 537-544). -/
inductive CoordState where
  | awaitingGather
  | finishedOk
  | finishedErr (e : String)
deriving DecidableEq

/-- A batch execution: the single shared mutable status record (the
object stored in _batch_statuses and mutated by every worker), the
submitted files, the per-file worker states, the free semaphore
permits, the first worker exception (the one asyncio.gather re-raises)
and the coordinator location. -/
structure BatchExec where
  record : BatchProcessingStatus
  files : List BatchFile
  workers : List WorkerState
  permits : Nat
  firstExn : Option String
  coordinator : CoordState
deriving DecidableEq

/-- State after the synchronous prefix of process_batch
(lines 503-529): the status record is created with
total_files = len(files), stored in _batch_statuses, set to
processing; the semaphore holds maxWorkers permits (line 517,
max_workers defaults to 4); one task per file is created in order
(lines 524-526); and the coroutine suspends in await asyncio.gather
(line 529). -/
def initBatch (batchId : String) (files : List BatchFile)
    (maxWorkers : Nat) : BatchExec :=
  { record :=
      { batchId := batchId, totalFiles := files.length, processedFiles := 0,
        successCount := 0, errorCount := 0, currentFile := none,
        status := .processing, errors := [] }
    files := files
    workers := files.map (fun _ => WorkerState.waitingSem)
    permits := maxWorkers
    firstExn := none
    coordinator := .awaitingGather }

/-- Scheduler events of a batch execution.  Cooperative asyncio
interleaving is modelled by the scheduler choosing which suspended
coroutine advances to its next suspension point. -/
inductive BatchLabel where
  | startWorker (i : Nat)
  | finishWorker (i : Nat)
  | gatherDone
  | gatherRaise
  | cancelBatch
deriving DecidableEq

/-- One scheduler step.  startWorker i: task i leaves the semaphore
acquire (needs a free permit), runs the synchronous segment that sets
current_file (line 559, progress_callback is None) and suspends in the
extraction await — no cancellation check exists on this path.
finishWorker i: the extraction await resolves; on success the worker
increments processed_files and success_count (lines 567-568); on
failure it increments processed_files and error_count, appends the
per-file error entry (lines 576-581) and re-raises; either way the
async-with releases the permit.  gatherDone: gather resolves once all
tasks succeeded, and process_batch sets status to completed
unconditionally (line 532).  gatherRaise: gather re-raises the first
worker exception while other tasks may still be pending; process_batch
marks the status error, appends the batch-level error entry and
re-raises past its caller (lines 537-544).  cancelBatch: cancel_batch
(lines 598-609) flips a processing status to cancelled and returns
True; nothing else consults that flag. -/
def applyStep (s : BatchExec) (l : BatchLabel) : Option BatchExec :=
  match l with
  | .startWorker i =>
    match s.workers.get? i, s.files.get? i with
    | some WorkerState.waitingSem, some f =>
      if 0 < s.permits then
        some { s with
          workers := s.workers.set i .running
          permits := s.permits - 1
          record := { s.record with currentFile := some f.name } }
      else none
    | _, _ => none
  | .finishWorker i =>
    match s.workers.get? i, s.files.get? i with
    | some WorkerState.running, some f =>
      match f.result with
      | none =>
        some { s with
          workers := s.workers.set i .doneOk
          permits := s.permits + 1
          record := { s.record with
            processedFiles := s.record.processedFiles + 1
            successCount := s.record.successCount + 1 } }
      | some msg =>
        some { s with
          workers := s.workers.set i .doneErr
          permits := s.permits + 1
          firstExn := match s.firstExn with
            | none => some msg
            | some e => some e
          record := { s.record with
            processedFiles := s.record.processedFiles + 1
            errorCount := s.record.errorCount + 1
            errors := s.record.errors ++ [(f.name, msg)] } }
    | _, _ => none
  | .gatherDone =>
    match s.coordinator with
    | CoordState.awaitingGather =>
      if s.workers.all (fun w => w = WorkerState.doneOk) then
        some { s with
          coordinator := .finishedOk
          record := { s.record with status := .completed } }
      else none
    | _ => none
  | .gatherRaise =>
    match s.coordinator, s.firstExn with
    | CoordState.awaitingGather, some e =>
      some { s with
        coordinator := .finishedErr e
        record := { s.record with
          status := .errorState
          errors := s.record.errors ++ [("batch", e)] } }
    | _, _ => none
  | .cancelBatch =>
    if s.record.status = BatchStatusTag.processing then
      some { s with record := { s.record with status := .cancelled } }
    else none

/-- Run a list of scheduler events; none when some event is not
enabled at its state. -/
def runTrace (s : BatchExec) : List BatchLabel → Option BatchExec
  | [] => some s
  | l :: ls =>
    match applyStep s l with
    | none => none
    | some s2 => runTrace s2 ls

/-- A Python reference to a BatchProcessingStatus object.
get_batch_status (lines 586-588) returns the object stored in
_batch_statuses — the very object the workers mutate — so the model
returns a handle that is dereferenced against the execution state
current at read time. -/
inductive StatusRef where
  | live (batchId : String)
deriving DecidableEq

/-- Embedding of get_batch_status (lines 586-588): dict .get on
_batch_statuses, holding the one batch of the execution. -/
def get_batch_status (s : BatchExec) (batchId : String) : Option StatusRef :=
  if batchId = s.record.batchId then some (StatusRef.live batchId) else none

/-- Reading the fields of the referenced status object at a given
moment yields the record as it is at that moment. -/
def derefStatus (s : BatchExec) : StatusRef → Option BatchProcessingStatus
  | .live bid => if bid = s.record.batchId then some s.record else none

/-- The inductive invariant tying the counters of the shared status
record to the worker states: success_count counts finished-ok workers,
error_count counts finished-err workers, processed_files is their sum,
total_files is the number of workers, and a completed status implies
every worker finished ok (process_batch sets completed only after
gather resolves without exception). -/
def countersInv (s : BatchExec) : Prop :=
  s.record.successCount = s.workers.count WorkerState.doneOk ∧
  s.record.errorCount = s.workers.count WorkerState.doneErr ∧
  s.record.processedFiles =
    s.workers.count WorkerState.doneOk + s.workers.count WorkerState.doneErr ∧
  s.record.totalFiles = s.workers.length ∧
  (s.record.status = BatchStatusTag.completed →
    ∀ w ∈ s.workers, w = WorkerState.doneOk)

/-- Concrete batch of two files where the first extraction raises. -/
def batchC6 : BatchExec :=
  initBatch "b6" [{ name := "f1", result := some "boom" },
    { name := "f2", result := none }] 4

/-- Concrete one-file batch that succeeds. -/
def batchC6w : BatchExec := initBatch "b6w" [{ name := "f1", result := none }] 4

/-- The state after running batchC6w to completion. -/
def batchC6wFinal : BatchExec :=
  { record :=
      { batchId := "b6w"
        totalFiles := 1
        processedFiles := 1
        successCount := 1
        errorCount := 0
        currentFile := some "f1"
        status := BatchStatusTag.completed
        errors := [] }
    files := [{ name := "f1", result := none }]
    workers := [WorkerState.doneOk]
    permits := 4
    firstExn := none
    coordinator := CoordState.finishedOk }

/-- Concrete three-file batch where only the second extraction raises —
the failure-isolation scenario of the spec. -/
def batchC1 : BatchExec :=
  initBatch "b1" [{ name := "f1", result := none },
    { name := "f2", result := some "boom" },
    { name := "f3", result := none }] 4

/-- The state batchC1 reaches when every worker runs to completion and
gather then re-raises the f2 exception into process_batch. -/
def batchC1Final : BatchExec :=
  { record :=
      { batchId := "b1"
        totalFiles := 3
        processedFiles := 3
        successCount := 2
        errorCount := 1
        currentFile := some "f3"
        status := BatchStatusTag.errorState
        errors := [("f2", "boom"), ("batch", "boom")] }
    files := [{ name := "f1", result := none },
      { name := "f2", result := some "boom" },
      { name := "f3", result := none }]
    workers := [WorkerState.doneOk, WorkerState.doneErr, WorkerState.doneOk]
    permits := 4
    firstExn := some "boom"
    coordinator := CoordState.finishedErr "boom" }

/-- Concrete one-file batch used for the cancellation claims. -/
def batchC3 : BatchExec := initBatch "b3" [{ name := "f1", result := none }] 4

/-- The concrete cancelled state reached from batchC3. -/
def batchC3c : BatchExec :=
  { batchC3 with record := { batchC3.record with
      status := BatchStatusTag.cancelled } }

/-- Concrete one-file batch used for the status-snapshot claims. -/
def batchB : BatchExec := initBatch "batch" [{ name := "f1", result := none }] 4

/-- The state of batchB after its single worker has finished. -/
def batchBFinal : BatchExec :=
  { record :=
      { batchId := "batch"
        totalFiles := 1
        processedFiles := 1
        successCount := 1
        errorCount := 0
        currentFile := some "f1"
        status := BatchStatusTag.processing
        errors := [] }
    files := [{ name := "f1", result := none }]
    workers := [WorkerState.doneOk]
    permits := 4
    firstExn := none
    coordinator := CoordState.awaitingGather }

/-- Python exception raised by division with a zero denominator. -/
inductive PyErr where
  | zeroDivisionError
deriving DecidableEq

/-- Python true division on the integer counters of the manager:
raises ZeroDivisionError when the denominator is zero, otherwise
yields the rational quotient. -/
def pyDiv (a b : Nat) : Except PyErr Rat :=
  if b = 0 then .error PyErr.zeroDivisionError else .ok ((a : Rat) / (b : Rat))

/-- The per-batch tracking dict created by start_processing
(processing_manager.py lines 56-62); the start_time datetime is not
part of any claim and is omitted. -/
structure ProcessingTask where
  totalFiles : Nat
  processedFiles : Nat
  statusStr : String
  errors : List String
deriving DecidableEq

/-- The manager state: processing_tasks keyed by batch id. -/
structure PMState where
  processingTasks : List (String × ProcessingTask)
deriving DecidableEq

/-- Dict lookup on processing_tasks. -/
def pmLookup (st : PMState) (batchId : String) : Option ProcessingTask :=
  (st.processingTasks.find? (fun p => p.1 = batchId)).map Prod.snd

/-- Embedding of start_processing (lines 51-69): a batch already
present is left alone; otherwise the tracking dict is created with the
given total_files and zero processed_files (the broadcast to websocket
clients is external and stateless here). -/
def start_processing (st : PMState) (batchId : String) (totalFiles : Nat) :
    PMState :=
  if (pmLookup st batchId).isSome then st
  else { processingTasks := st.processingTasks ++
      [(batchId, { totalFiles := totalFiles, processedFiles := 0,
                   statusStr := "processing", errors := [] })] }

/-- The progress message built by update_progress (lines 88-97). -/
structure ProgressMessage where
  batchId : String
  filesProcessed : Nat
  totalFiles : Nat
  currentFile : Option String
  progressPercentage : Rat
  errorField : Option String
deriving DecidableEq

/-- Embedding of update_progress (lines 71-99): an unknown batch
returns with no effect; otherwise processed_files is overwritten, a
passed error is appended, and the progress payload is built computing
(files_processed / total_files) * 100 with no guard on
total_files = 0 — the division raises ZeroDivisionError there (the
dict mutations precede the raise in the Python, and the raise
propagates to the caller). -/
def update_progress (st : PMState) (batchId : String) (filesProcessed : Nat)
    (currentFile : Option String) (errorArg : Option String) :
    Except PyErr (PMState × Option ProgressMessage) :=
  match pmLookup st batchId with
  | none => .ok (st, none)
  | some task =>
    let task2 : ProcessingTask :=
      { task with
        processedFiles := filesProcessed
        errors := match errorArg with
          | some e => task.errors ++ [e]
          | none => task.errors }
    let st2 : PMState :=
      { processingTasks := st.processingTasks.map
          (fun p => if p.1 = batchId then (p.1, task2) else p) }
    match pyDiv filesProcessed task.totalFiles with
    | .error e => .error e
    | .ok ratio => .ok (st2, some
        { batchId := batchId
          filesProcessed := filesProcessed
          totalFiles := task.totalFiles
          currentFile := currentFile
          progressPercentage := ratio * 100
          errorField := errorArg })

/-- The report built by get_processing_status (lines 156-164);
wall-clock fields (start_time, duration_seconds) are omitted. -/
structure StatusReport where
  batchId : String
  statusStr : String
  filesProcessed : Nat
  totalFiles : Nat
  progressPercentage : Rat
  errors : List String
deriving DecidableEq

/-- Embedding of get_processing_status (lines 150-165): None for an
unknown batch; otherwise the report is built, again computing
processed_files / total_files * 100 unguarded. -/
def get_processing_status (st : PMState) (batchId : String) :
    Except PyErr (Option StatusReport) :=
  match pmLookup st batchId with
  | none => .ok none
  | some task =>
    match pyDiv task.processedFiles task.totalFiles with
    | .error e => .error e
    | .ok ratio => .ok (some
        { batchId := batchId
          statusStr := task.statusStr
          filesProcessed := task.processedFiles
          totalFiles := task.totalFiles
          progressPercentage := ratio * 100
          errors := task.errors })

/-- The manager state after start_processing with total_files = 0. -/
def pmZero : PMState := start_processing { processingTasks := [] } "b" 0

/-- The tracking dict pmZero holds for batch "b". -/
def pmZeroTask : ProcessingTask :=
  { totalFiles := 0, processedFiles := 0, statusStr := "processing",
    errors := [] }

/-- Concrete registry for the containment witness: "curator" is
registered with a handler that raises on every message; other ids are
absent. -/
def agentsW : String → Option AgentBehavior :=
  fun sid =>
    if sid = "curator" then some ⟨fun _ => Except.error "handler boom"⟩
    else none

theorem MessageQueueItem.lt_asymm {a b : MessageQueueItem}
    (h : a.lt b = true) : b.lt a = false := by
  unfold MessageQueueItem.lt at h ⊢
  by_cases hp : a.priority = b.priority
  · simp [hp] at h ⊢
    omega
  · simp [hp, Ne.symm hp] at h ⊢
    omega

theorem MessageQueueItem.lt_irrefl (a : MessageQueueItem) :
    a.lt a = false := by
  unfold MessageQueueItem.lt
  simp

/-- Negated comparison is transitive: __lt__ is a strict weak order on
(priority, timestamp) keys. -/
theorem MessageQueueItem.lt_false_trans {a b c : MessageQueueItem}
    (hab : a.lt b = false) (hbc : b.lt c = false) : a.lt c = false := by
  unfold MessageQueueItem.lt at hab hbc ⊢
  by_cases hab' : a.priority = b.priority <;>
    by_cases hbc' : b.priority = c.priority <;>
      by_cases hac' : a.priority = c.priority <;>
        simp_all <;> omega

theorem popMin_nil : popMin [] = none := rfl

theorem popMin_eq_none {q : List MessageQueueItem}
    (h : popMin q = none) : q = [] := by
  cases q with
  | nil => rfl
  | cons x xs =>
    unfold popMin at h
    cases hx : popMin xs with
    | none => simp [hx] at h
    | some p =>
      rw [hx] at h
      by_cases hlt : p.1.lt x = true <;> simp [hlt] at h

theorem popMin_length {q : List MessageQueueItem}
    {m : MessageQueueItem} {rest : List MessageQueueItem}
    (h : popMin q = some (m, rest)) : rest.length + 1 = q.length := by
  induction q generalizing m rest with
  | nil => simp [popMin] at h
  | cons x xs ih =>
    unfold popMin at h
    cases hx : popMin xs with
    | none =>
      rw [hx] at h
      have hxs := popMin_eq_none hx
      simp only [Option.some.injEq, Prod.mk.injEq] at h
      obtain ⟨rfl, rfl⟩ := h
      simp [hxs]
    | some p =>
      obtain ⟨m', rest'⟩ := p
      rw [hx] at h
      dsimp only at h
      by_cases hlt : m'.lt x = true
      · rw [if_pos hlt] at h
        simp only [Option.some.injEq, Prod.mk.injEq] at h
        obtain ⟨rfl, rfl⟩ := h
        have := ih hx
        simp only [List.length_cons]
        omega
      · rw [if_neg hlt] at h
        simp only [Option.some.injEq, Prod.mk.injEq] at h
        obtain ⟨rfl, rfl⟩ := h
        rfl

theorem popMin_perm {q : List MessageQueueItem}
    {m : MessageQueueItem} {rest : List MessageQueueItem}
    (h : popMin q = some (m, rest)) : q.Perm (m :: rest) := by
  induction q generalizing m rest with
  | nil => simp [popMin] at h
  | cons x xs ih =>
    unfold popMin at h
    cases hx : popMin xs with
    | none =>
      rw [hx] at h
      have hxs := popMin_eq_none hx
      simp only [Option.some.injEq, Prod.mk.injEq] at h
      obtain ⟨rfl, rfl⟩ := h
      subst hxs
      exact List.Perm.refl _
    | some p =>
      obtain ⟨m', rest'⟩ := p
      rw [hx] at h
      dsimp only at h
      by_cases hlt : m'.lt x = true
      · rw [if_pos hlt] at h
        simp only [Option.some.injEq, Prod.mk.injEq] at h
        obtain ⟨rfl, rfl⟩ := h
        have hperm := ih hx
        exact (hperm.cons x).trans (List.Perm.swap _ x rest')
      · rw [if_neg hlt] at h
        simp only [Option.some.injEq, Prod.mk.injEq] at h
        obtain ⟨rfl, rfl⟩ := h
        exact List.Perm.refl _

/-- The extracted element is minimal: nothing remaining compares below it. -/
theorem popMin_min {q : List MessageQueueItem}
    {m : MessageQueueItem} {rest : List MessageQueueItem}
    (h : popMin q = some (m, rest)) :
    ∀ x ∈ rest, x.lt m = false := by
  induction q generalizing m rest with
  | nil => simp [popMin] at h
  | cons x xs ih =>
    unfold popMin at h
    cases hx : popMin xs with
    | none =>
      rw [hx] at h
      simp only [Option.some.injEq, Prod.mk.injEq] at h
      obtain ⟨rfl, rfl⟩ := h
      intro y hy
      simp at hy
    | some p =>
      obtain ⟨m', rest'⟩ := p
      rw [hx] at h
      dsimp only at h
      by_cases hlt : m'.lt x = true
      · rw [if_pos hlt] at h
        simp only [Option.some.injEq, Prod.mk.injEq] at h
        obtain ⟨rfl, rfl⟩ := h
        intro y hy
        rcases List.mem_cons.mp hy with hy | hy
        · subst hy
          exact MessageQueueItem.lt_asymm hlt
        · exact ih hx y hy
      · rw [if_neg hlt] at h
        simp only [Option.some.injEq, Prod.mk.injEq] at h
        obtain ⟨rfl, rfl⟩ := h
        intro y hy
        have hnlt : m'.lt x = false := Bool.eq_false_iff.mpr hlt
        have hmem := (popMin_perm hx).mem_iff.mp hy
        rcases List.mem_cons.mp hmem with hy' | hy'
        · subst hy'
          exact hnlt
        · exact MessageQueueItem.lt_false_trans (ih hx y hy') hnlt

theorem drain_perm :
    ∀ (n : Nat) (q : List MessageQueueItem), q.length ≤ n →
      (drain n q).Perm q := by
  intro n
  induction n with
  | zero =>
    intro q hq
    have hq' : q = [] := List.length_eq_zero.mp (Nat.le_zero.mp hq)
    subst hq'
    simp [drain]
  | succ n ih =>
    intro q hq
    unfold drain
    cases hp : popMin q with
    | none =>
      have hq' := popMin_eq_none hp
      subst hq'
      simp
    | some p =>
      obtain ⟨m, rest⟩ := p
      dsimp only
      have hlen := popMin_length hp
      have hperm := popMin_perm hp
      have hrest : rest.length ≤ n := by omega
      exact ((ih rest hrest).cons m).trans hperm.symm

theorem drain_sorted :
    ∀ (n : Nat) (q : List MessageQueueItem), q.length ≤ n →
      (drain n q).Pairwise (fun a b => b.lt a = false) := by
  intro n
  induction n with
  | zero =>
    intro q hq
    simp [drain]
  | succ n ih =>
    intro q hq
    unfold drain
    cases hp : popMin q with
    | none =>
      dsimp only
      exact List.Pairwise.nil
    | some p =>
      obtain ⟨m, rest⟩ := p
      dsimp only
      have hlen := popMin_length hp
      have hrest : rest.length ≤ n := by omega
      refine List.Pairwise.cons ?_ (ih rest hrest)
      intro y hy
      have hymem : y ∈ rest := (drain_perm n rest hrest).mem_iff.mp hy
      exact popMin_min hp y hymem

/-- In a run sorted by the strict weak order, a strictly smaller entry
sits at a strictly smaller position. -/
theorem indexOf_lt_indexOf_of_sorted {d : List MessageQueueItem}
    (hs : d.Pairwise (fun a b => b.lt a = false))
    {a b : MessageQueueItem} (ha : a ∈ d) (hb : b ∈ d)
    (hab : a.lt b = true) :
    d.indexOf a < d.indexOf b := by
  have hne : a ≠ b := by
    intro he
    rw [he, MessageQueueItem.lt_irrefl] at hab
    exact Bool.false_ne_true hab
  by_contra hcon
  push_neg at hcon
  have hia : d.indexOf a < d.length := List.indexOf_lt_length.mpr ha
  have hib : d.indexOf b < d.length := List.indexOf_lt_length.mpr hb
  have hne2 : d.indexOf b ≠ d.indexOf a := by
    intro he
    exact hne ((List.indexOf_inj ha hb).mp he.symm)
  have hlt2 : d.indexOf b < d.indexOf a := lt_of_le_of_ne hcon hne2
  have hpair := (List.pairwise_iff_getElem.mp hs) _ _ hib hia hlt2
  rw [List.getElem_indexOf hia, List.getElem_indexOf hib] at hpair
  rw [hab] at hpair
  exact Bool.noConfusion hpair

/-- Amended C2.  Priority-then-FIFO dispatch holds provided the
enqueue-time datetime.now() readings strictly increase along the
enqueue order (the hypothesis hts): then every pair of entries is
__lt__-comparable, the heap pop is the unique minimal entry, and for
any two entries a strictly higher priority is dispatched strictly
first regardless of enqueue order, while among equal priorities the
earlier-enqueued entry is dispatched first.  Without that clock
hypothesis the claim is false: the tie-break key is a wall-clock
reading, not a sequence number, and the counterexample shows heapq
dispatching equal-priority entries with equal readings out of enqueue
order. -/
theorem priority_then_fifo_dispatch (q : List MessageQueueItem)
    (hts : q.Pairwise (fun a b => a.timestamp < b.timestamp))
    (i j : Fin q.length)
    (hpf : (q.get i).priority > (q.get j).priority ∨
      ((q.get i).priority = (q.get j).priority ∧ (i : Nat) < (j : Nat))) :
    (dispatchOrder q).indexOf (q.get i) < (dispatchOrder q).indexOf (q.get j) := by
  have hperm : (dispatchOrder q).Perm q := drain_perm q.length q (le_refl _)
  have hs : (dispatchOrder q).Pairwise (fun a b => b.lt a = false) :=
    drain_sorted q.length q (le_refl _)
  have ha : q.get i ∈ dispatchOrder q := hperm.mem_iff.mpr (q.get_mem i.1 i.2)
  have hb : q.get j ∈ dispatchOrder q := hperm.mem_iff.mpr (q.get_mem j.1 j.2)
  have hab : (q.get i).lt (q.get j) = true := by
    unfold MessageQueueItem.lt
    rcases hpf with hp | ⟨hp, hij⟩
    · rw [if_pos (by omega)]
      simpa using hp
    · rw [if_neg (by simp only [List.get_eq_getElem] at hp; simp [hp])]
      have hts2 := (List.pairwise_iff_get.mp hts) i j (by omega)
      simpa using hts2
  exact indexOf_lt_indexOf_of_sorted hs ha hb hab

/-- Witness for C2 at a concrete queue: the HIGH entry enqueued second
is nevertheless dispatched before the LOW entry enqueued first. -/
theorem priority_then_fifo_dispatch_witness :
    qWitness.Pairwise (fun a b => a.timestamp < b.timestamp) ∧
    (dispatchOrder qWitness).indexOf (qWitness.get ⟨1, by decide⟩) <
      (dispatchOrder qWitness).indexOf (qWitness.get ⟨0, by decide⟩) :=
  ⟨by decide,
   priority_then_fifo_dispatch qWitness (by decide) ⟨1, by decide⟩ ⟨0, by decide⟩
     (by decide)⟩

theorem cloneId_ne_empty (a b : String) : a ++ "-" ++ b ≠ "" := by
  intro h
  have hd := congrArg String.data h
  simp [String.data_append] at hd

theorem cloneId_inj {a b c : String}
    (h : a ++ "-" ++ b = a ++ "-" ++ c) : b = c := by
  have hd := congrArg String.data h
  simp only [String.data_append, List.append_assoc] at hd
  have hb := List.append_cancel_left (List.append_cancel_left hd)
  exact String.ext hb

theorem send_message_registered (st : BusState) (m : AgentMessage) :
    (send_message st m).registeredAgents = st.registeredAgents := by
  unfold send_message
  split <;> rfl

theorem send_message_clone_queue (st : BusState) (message : AgentMessage)
    (sid : String) :
    (send_message st (broadcastClone message sid)).queue =
      st.queue ++
        (if sid ≠ "" ∧ sid ∈ st.registeredAgents then
          [{ message := broadcastClone message sid,
             timestamp := st.clockReadings st.clockIdx,
             priority := message.priority.value }] else []) := by
  have hid : message.messageId ++ "-" ++ sid ≠ "" := cloneId_ne_empty _ _
  by_cases h1 : sid = ""
  · subst h1
    simp [send_message, broadcastClone]
  · by_cases h2 : sid ∈ st.registeredAgents
    · simp [send_message, broadcastClone, h1, h2, hid]
    · simp [send_message, broadcastClone, h1, h2]

theorem broadcast_queue_shape (s : BusState) (message : AgentMessage) :
    (broadcast_message s message).queue.map projEntry =
      s.queue.map projEntry ++ broadcastRecipients s message := by
  unfold broadcast_message broadcastRecipients
  generalize s.subscriptions message.messageType = subs
  induction subs generalizing s with
  | nil => simp
  | cons sid rest ih =>
    simp only [List.foldl_cons, List.filter_cons]
    have hq := send_message_clone_queue s message sid
    have hr := send_message_registered s (broadcastClone message sid)
    have ihs := ih (send_message s (broadcastClone message sid))
    rw [ihs, hr, hq]
    by_cases hok : sid ≠ "" ∧ sid ∈ s.registeredAgents
    · rw [if_pos hok, if_pos (by simpa using hok)]
      simp [projEntry, broadcastClone]
    · rw [if_neg hok, if_neg (by simpa using hok)]
      simp

/-- Amended C5.  Broadcast fan-out as the code implements it: the
clones enqueued by a broadcast go exactly to the subscribers of the
message type that pass the send-time receiver check — the sender is
NOT excluded — and each clone id is the original id, a dash and the
recipient id, so on a duplicate-free subscriber set the clone ids are
pairwise distinct and traceable to the original. -/
theorem broadcast_fanout (s : BusState) (message : AgentMessage)
    (hnd : (s.subscriptions message.messageType).Nodup) :
    (broadcast_message s message).queue.map projEntry =
      s.queue.map projEntry ++ broadcastRecipients s message ∧
    ((broadcastRecipients s message).map Prod.snd).Nodup := by
  refine ⟨broadcast_queue_shape s message, ?_⟩
  unfold broadcastRecipients
  rw [List.map_map]
  refine List.Nodup.map ?_ (hnd.filter _)
  intro a b hab
  exact cloneId_inj hab

/-- Counterexample to C5 as stated: "alpha" broadcasts a TASK message
while itself subscribed to TASK, and the code enqueues a clone whose
receiver is "alpha" — the sender is not excluded from the fan-out. -/
theorem broadcast_includes_sender_cex :
    msgA.sender = "alpha" ∧
    (broadcast_message busA msgA).queue.map
      (fun e => e.message.receiver) = ["alpha"] ∧
    (broadcast_message busA msgA).queue.map
      (fun e => e.message.messageId) = ["orig-alpha"] := by
  refine ⟨rfl, ?_, ?_⟩ <;> decide

/-- Witness for the amended C5 at the concrete bus above. -/
theorem broadcast_fanout_witness :
    (busA.subscriptions msgA.messageType).Nodup ∧
    ((broadcast_message busA msgA).queue.map projEntry =
      busA.queue.map projEntry ++ broadcastRecipients busA msgA ∧
     ((broadcastRecipients busA msgA).map Prod.snd).Nodup) :=
  ⟨by decide, broadcast_fanout busA msgA (by decide)⟩

/-- C8.  Handler exception containment: for every registry and every
queue — including handlers that raise on every envelope — the dispatch
loop finishes with exactly one recorded outcome per envelope, in queue
order; no exception escapes the loop (the result is never .error), a
raising handler yields a logged handlerFailed outcome, and the
envelope is not re-dispatched (one outcome each, no retry). -/
theorem handler_exception_contained
    (agents : String → Option AgentBehavior) (q : List MessageQueueItem) :
    processMessages agents q = .ok (q.map (dispatchOutcome agents)) := by
  induction q with
  | nil => rfl
  | cons item rest ih => simp [processMessages, ih]

/-- C7.  stop() awaits the dispatch task (line 69), so it returns only
once the loop reaches exited.  From the idle stopped state no number
of scheduler steps ever reaches exited: queue.get() never resolves on
the empty queue and stop() never cancels the task, so stop() never
returns.  This refutes the claim for the empty-queue case. -/
theorem stop_on_empty_queue_never_returns (n : Nat) :
    (loopRun n stoppedIdleLoop).site ≠ LoopSite.exited := by
  cases n with
  | zero => decide
  | succ n =>
    have hstep : loopStep stoppedIdleLoop = none := rfl
    simp only [loopRun, hstep]
    decide

theorem count_set_of_get? (l : List WorkerState) (i : Nat)
    (a b c : WorkerState) (h : l.get? i = some a) :
    (l.set i b).count c + (if a = c then 1 else 0) =
      l.count c + (if b = c then 1 else 0) := by
  induction l generalizing i with
  | nil => simp at h
  | cons x xs ih =>
    cases i with
    | zero =>
      simp only [List.get?_cons_zero, Option.some.injEq] at h
      subst h
      simp only [List.set]
      simp only [List.count_cons, beq_iff_eq]
      by_cases h1 : x = c <;> by_cases h2 : b = c <;> simp [h1, h2]
    | succ n =>
      simp only [List.get?_cons_succ] at h
      simp only [List.set]
      simp only [List.count_cons, beq_iff_eq]
      have := ih n h
      omega

theorem count_ok_err_le_length (ws : List WorkerState) :
    ws.count WorkerState.doneOk + ws.count WorkerState.doneErr ≤ ws.length := by
  induction ws with
  | nil => simp
  | cons w ws ih =>
    simp only [List.count_cons, beq_iff_eq, List.length_cons]
    cases w <;> simp <;> omega

theorem applyStep_batchId {s s' : BatchExec} {l : BatchLabel}
    (h : applyStep s l = some s') : s'.record.batchId = s.record.batchId := by
  cases l <;>
    unfold applyStep at h <;>
    (repeat' split at h) <;>
    first
      | exact Option.noConfusion h
      | (injection h with h; subst h; rfl)

theorem runTrace_batchId {s s' : BatchExec} {tr : List BatchLabel}
    (h : runTrace s tr = some s') : s'.record.batchId = s.record.batchId := by
  induction tr generalizing s with
  | nil =>
    simp only [runTrace, Option.some.injEq] at h
    rw [← h]
  | cons l ls ih =>
    unfold runTrace at h
    cases ha : applyStep s l with
    | none => rw [ha] at h; exact Option.noConfusion h
    | some s2 =>
      rw [ha] at h
      rw [ih h, applyStep_batchId ha]

theorem countersInv_init (batchId : String) (files : List BatchFile)
    (maxWorkers : Nat) : countersInv (initBatch batchId files maxWorkers) := by
  have hz : ∀ c : WorkerState, c ≠ WorkerState.waitingSem →
      (files.map (fun _ => WorkerState.waitingSem)).count c = 0 := by
    intro c hc
    rw [List.count_eq_zero]
    intro hmem
    rcases List.mem_map.mp hmem with ⟨f, _, hf⟩
    exact hc hf.symm
  unfold countersInv initBatch
  dsimp only
  rw [hz WorkerState.doneOk (by simp), hz WorkerState.doneErr (by simp),
    List.length_map]
  refine ⟨rfl, rfl, rfl, rfl, ?_⟩
  intro hc
  exact absurd hc (by simp)

theorem countersInv_step {s s' : BatchExec} {l : BatchLabel}
    (h : applyStep s l = some s') (hinv : countersInv s) : countersInv s' := by
  obtain ⟨h1, h2, h3, h4, h5⟩ := hinv
  cases l with
  | startWorker i =>
    unfold applyStep at h
    dsimp only at h
    split at h <;> try exact Option.noConfusion h
    rename_i f hw hf
    split at h <;> try exact Option.noConfusion h
    rename_i hp
    injection h with h
    subst h
    have hok := count_set_of_get? s.workers i _ WorkerState.running
      WorkerState.doneOk hw
    have herr := count_set_of_get? s.workers i _ WorkerState.running
      WorkerState.doneErr hw
    simp at hok herr
    unfold countersInv
    refine ⟨?_, ?_, ?_, ?_, ?_⟩
    · dsimp only
      omega
    · dsimp only
      omega
    · dsimp only
      omega
    · dsimp only
      rw [List.length_set]
      exact h4
    · dsimp only
      intro hc w hwmem
      have hmem : WorkerState.waitingSem ∈ s.workers := List.get?_mem hw
      exact absurd (h5 hc _ hmem) (by simp)
  | finishWorker i =>
    unfold applyStep at h
    dsimp only at h
    split at h <;> try exact Option.noConfusion h
    rename_i f hw hf
    have hmem : WorkerState.running ∈ s.workers := List.get?_mem hw
    split at h
    · injection h with h
      subst h
      have hok := count_set_of_get? s.workers i _ WorkerState.doneOk
        WorkerState.doneOk hw
      have herr := count_set_of_get? s.workers i _ WorkerState.doneOk
        WorkerState.doneErr hw
      simp at hok herr
      unfold countersInv
      refine ⟨?_, ?_, ?_, ?_, ?_⟩
      · dsimp only
        omega
      · dsimp only
        omega
      · dsimp only
        omega
      · dsimp only
        rw [List.length_set]
        exact h4
      · dsimp only
        intro hc
        exact absurd (h5 hc _ hmem) (by simp)
    · rename_i msg hres
      injection h with h
      subst h
      have hok := count_set_of_get? s.workers i _ WorkerState.doneErr
        WorkerState.doneOk hw
      have herr := count_set_of_get? s.workers i _ WorkerState.doneErr
        WorkerState.doneErr hw
      simp at hok herr
      unfold countersInv
      refine ⟨?_, ?_, ?_, ?_, ?_⟩
      · dsimp only
        omega
      · dsimp only
        omega
      · dsimp only
        omega
      · dsimp only
        rw [List.length_set]
        exact h4
      · dsimp only
        intro hc
        exact absurd (h5 hc _ hmem) (by simp)
  | gatherDone =>
    unfold applyStep at h
    dsimp only at h
    split at h <;> try exact Option.noConfusion h
    split at h <;> try exact Option.noConfusion h
    rename_i hall
    injection h with h
    subst h
    refine ⟨h1, h2, h3, h4, ?_⟩
    intro _ w hwmem
    have hwa := List.all_eq_true.mp hall w hwmem
    simpa using hwa
  | gatherRaise =>
    unfold applyStep at h
    dsimp only at h
    split at h <;> try exact Option.noConfusion h
    injection h with h
    subst h
    refine ⟨h1, h2, h3, h4, ?_⟩
    intro hc
    exact absurd hc (by simp)
  | cancelBatch =>
    unfold applyStep at h
    dsimp only at h
    split at h <;> try exact Option.noConfusion h
    injection h with h
    subst h
    refine ⟨h1, h2, h3, h4, ?_⟩
    intro hc
    exact absurd hc (by simp)

theorem countersInv_run {s s' : BatchExec} {tr : List BatchLabel}
    (h : runTrace s tr = some s') (hinv : countersInv s) : countersInv s' := by
  induction tr generalizing s with
  | nil =>
    simp only [runTrace, Option.some.injEq] at h
    rwa [← h]
  | cons l ls ih =>
    unfold runTrace at h
    cases ha : applyStep s l with
    | none => rw [ha] at h; exact Option.noConfusion h
    | some s2 =>
      rw [ha] at h
      exact ih h (countersInv_step ha hinv)

/-- Amended C6.  Counter conservation as the code maintains it: along
every execution of a submitted batch, processed == succeeded + failed
and processed ≤ total hold at every suspension point, and when the
terminal state completed is reached processed == total.  The original
claim fails for the terminal error state, which process_batch enters
the moment gather re-raises while sibling workers are still pending
(see the counterexample): at that point processed can be short of
total. -/
theorem batch_counters_conserved (batchId : String) (files : List BatchFile)
    (maxWorkers : Nat) (tr : List BatchLabel) (s' : BatchExec)
    (h : runTrace (initBatch batchId files maxWorkers) tr = some s') :
    s'.record.processedFiles = s'.record.successCount + s'.record.errorCount ∧
    s'.record.processedFiles ≤ s'.record.totalFiles ∧
    (s'.record.status = BatchStatusTag.completed →
      s'.record.processedFiles = s'.record.totalFiles) := by
  obtain ⟨h1, h2, h3, h4, h5⟩ :=
    countersInv_run h (countersInv_init batchId files maxWorkers)
  refine ⟨by omega, ?_, ?_⟩
  · have := count_ok_err_le_length s'.workers
    omega
  · intro hc
    have hall := h5 hc
    have hle := count_ok_err_le_length s'.workers
    have hlen : s'.workers.count WorkerState.doneOk = s'.workers.length :=
      List.count_eq_length.mpr (fun w hw => by rw [hall w hw])
    omega

/-- Counterexample to C6 as stated: after file f1 fails, gather
re-raises while the worker for f2 has not started; process_batch marks
the batch terminal (error, not a cancellation) with processed = 1 but
total = 2, so succeeded + failed == processed == total fails in a
terminal state. -/
theorem batch_error_terminal_cex :
    ((runTrace batchC6 [BatchLabel.startWorker 0, BatchLabel.finishWorker 0,
        BatchLabel.gatherRaise]).map
      (fun s => (s.record.status, s.record.processedFiles,
        s.record.totalFiles, s.coordinator))) =
      some (BatchStatusTag.errorState, 1, 2, CoordState.finishedErr "boom") := by
  decide

/-- Witness for the amended C6 at a concrete completed batch. -/
theorem batch_counters_conserved_witness :
    runTrace batchC6w [BatchLabel.startWorker 0, BatchLabel.finishWorker 0,
        BatchLabel.gatherDone] = some batchC6wFinal ∧
    (batchC6wFinal.record.processedFiles =
        batchC6wFinal.record.successCount + batchC6wFinal.record.errorCount ∧
      batchC6wFinal.record.processedFiles ≤ batchC6wFinal.record.totalFiles ∧
      (batchC6wFinal.record.status = BatchStatusTag.completed →
        batchC6wFinal.record.processedFiles = batchC6wFinal.record.totalFiles)) :=
  ⟨by decide,
   batch_counters_conserved "b6w" [{ name := "f1", result := none }] 4
     [BatchLabel.startWorker 0, BatchLabel.finishWorker 0,
       BatchLabel.gatherDone] batchC6wFinal (by decide)⟩

/-- C1, evaluated at the failing input.  Items 1 and 3 do finish and
are counted (succeeded = 2, failed = 1, the f2 error entry is
recorded), but _process_batch_file re-raises after recording
(line 584), asyncio.gather re-raises into process_batch, and the
except block (lines 537-544) marks the batch error, appends a second
batch-level error entry and re-raises past the coordinator boundary:
the terminal state is error with two error entries and a propagated
exception, not COMPLETED with the failure contained as data. -/
theorem failure_not_isolated_scenario :
    runTrace batchC1 [BatchLabel.startWorker 0, BatchLabel.finishWorker 0,
        BatchLabel.startWorker 1, BatchLabel.finishWorker 1,
        BatchLabel.startWorker 2, BatchLabel.finishWorker 2,
        BatchLabel.gatherRaise] = some batchC1Final ∧
    batchC1Final.coordinator = CoordState.finishedErr "boom" ∧
    batchC1Final.record.status = BatchStatusTag.errorState ∧
    batchC1Final.record.successCount = 2 ∧
    batchC1Final.record.errorCount = 1 ∧
    batchC1Final.record.processedFiles = 3 ∧
    batchC1Final.record.errors = [("f2", "boom"), ("batch", "boom")] :=
  ⟨by decide, rfl, rfl, rfl, rfl, rfl, rfl⟩

/-- Counterexample to C3 as stated: cancel_batch succeeds on the
processing batch (status becomes cancelled while the only worker has
not started), yet the worker then starts its extraction, runs to
completion and is counted in processed/succeeded, and gather
completion finally overwrites the cancelled status with completed. -/
theorem cancel_not_checked_cex :
    ((runTrace batchC3 [BatchLabel.cancelBatch]).map
      (fun s => (s.record.status, s.workers))) =
      some (BatchStatusTag.cancelled, [WorkerState.waitingSem]) ∧
    ((runTrace batchC3 [BatchLabel.cancelBatch, BatchLabel.startWorker 0,
        BatchLabel.finishWorker 0, BatchLabel.gatherDone]).map
      (fun s => (s.record.status, s.record.processedFiles,
        s.record.successCount, s.workers))) =
      some (BatchStatusTag.completed, 1, 1, [WorkerState.doneOk]) :=
  ⟨by decide, by decide⟩

/-- Amended C3.  Cancellation is recorded but never consulted:
cancel_batch only rewrites the status field, and the start of a worker
neither checks nor is disabled by it — starting a worker from the
cancelled state succeeds exactly when it would have succeeded without
the cancellation, with the same effect apart from the status field.
Skipped items do not exist: every item still runs and is counted. -/
theorem cancel_leaves_workers_enabled (s s' : BatchExec)
    (h : applyStep s BatchLabel.cancelBatch = some s') (i : Nat) :
    s'.workers = s.workers ∧ s'.permits = s.permits ∧
    s'.files = s.files ∧ s'.coordinator = s.coordinator ∧
    applyStep s' (BatchLabel.startWorker i) =
      (applyStep s (BatchLabel.startWorker i)).map
        (fun t => { t with record := { t.record with
          status := BatchStatusTag.cancelled } }) := by
  unfold applyStep at h
  dsimp only at h
  split at h
  · injection h with h
    subst h
    refine ⟨rfl, rfl, rfl, rfl, ?_⟩
    unfold applyStep
    dsimp only
    cases hw : s.workers.get? i with
    | none => rfl
    | some w =>
      cases w <;> try rfl
      cases hf : s.files.get? i with
      | none => rfl
      | some f =>
        dsimp only
        by_cases hp : 0 < s.permits
        · rw [if_pos hp, if_pos hp]
          rfl
        · rw [if_neg hp, if_neg hp]
          rfl
  · exact Option.noConfusion h

/-- Witness for the amended C3 at the concrete one-file batch. -/
theorem cancel_leaves_workers_enabled_witness :
    applyStep batchC3 BatchLabel.cancelBatch = some batchC3c ∧
    (batchC3c.workers = batchC3.workers ∧ batchC3c.permits = batchC3.permits ∧
      batchC3c.files = batchC3.files ∧
      batchC3c.coordinator = batchC3.coordinator ∧
      applyStep batchC3c (BatchLabel.startWorker 0) =
        (applyStep batchC3 (BatchLabel.startWorker 0)).map
          (fun t => { t with record := { t.record with
            status := BatchStatusTag.cancelled } })) :=
  ⟨by decide, cancel_leaves_workers_enabled batchC3 batchC3c (by decide) 0⟩

/-- Counterexample to C4 as stated: get_batch_status hands back the
stored object itself; after the worker increments the counters, reading
processed_files through the handle obtained before the mutation yields
1, not the 0 a point-in-time copy would still show. -/
theorem get_batch_status_not_snapshot_cex :
    get_batch_status batchB "batch" = some (StatusRef.live "batch") ∧
    (derefStatus batchB (StatusRef.live "batch")).map
      (fun r => r.processedFiles) = some 0 ∧
    ((runTrace batchB [BatchLabel.startWorker 0, BatchLabel.finishWorker 0]).bind
      (fun s2 => (derefStatus s2 (StatusRef.live "batch")).map
        (fun r => r.processedFiles))) = some 1 :=
  ⟨by decide, by decide, by decide⟩

/-- Amended C4.  get_batch_status returns the live coordinator-owned
record, not a copy: dereferencing the handle it returned after any
further steps of the execution yields the record as mutated by those
steps. -/
theorem get_batch_status_live (s s' : BatchExec) (tr : List BatchLabel)
    (h : runTrace s tr = some s') :
    (get_batch_status s s.record.batchId).bind (derefStatus s') =
      some s'.record := by
  have hb := runTrace_batchId h
  unfold get_batch_status
  rw [if_pos rfl]
  unfold derefStatus
  simp only [Option.some_bind]
  rw [if_pos hb.symm]

/-- Witness for the amended C4 at the concrete one-file batch. -/
theorem get_batch_status_live_witness :
    runTrace batchB [BatchLabel.startWorker 0, BatchLabel.finishWorker 0] =
      some batchBFinal ∧
    (get_batch_status batchB batchB.record.batchId).bind
      (derefStatus batchBFinal) = some batchBFinal.record :=
  ⟨by decide,
   get_batch_status_live batchB batchBFinal
     [BatchLabel.startWorker 0, BatchLabel.finishWorker 0] (by decide)⟩

/-- C9.  Submitting an empty file list creates the status with
total_files = 0, spawns no worker task (the for loop over files never
runs, and no startWorker event is ever enabled), gather over no tasks
resolves at once and process_batch marks the batch completed; a
subsequent get_batch_status query on the batch id yields that
completed, total = 0, processed = 0 record. -/
theorem empty_batch_completed :
    (initBatch "b0" [] 4).workers = [] ∧
    (∀ i, applyStep (initBatch "b0" [] 4) (BatchLabel.startWorker i) = none) ∧
    ((runTrace (initBatch "b0" [] 4) [BatchLabel.gatherDone]).bind
      (fun s => ((get_batch_status s "b0").bind (derefStatus s)).map
        (fun r => (r.status, r.totalFiles, r.processedFiles)))) =
      some (BatchStatusTag.completed, 0, 0) := by
  refine ⟨rfl, ?_, by decide⟩
  intro i
  unfold applyStep initBatch
  dsimp only
  rw [show (([] : List BatchFile).map (fun _ => WorkerState.waitingSem)).get? i
      = none from by simp]

/-- C10.  For every batch registered in the manager with
total_files = 0, every call to update_progress raises
ZeroDivisionError (whatever the arguments), and get_processing_status
raises ZeroDivisionError, because progress_percentage divides by
total_files with no zero guard. -/
theorem zero_total_division (st : PMState) (batchId : String)
    (task : ProcessingTask) (h : pmLookup st batchId = some task)
    (hz : task.totalFiles = 0) :
    (∀ filesProcessed currentFile errorArg,
      update_progress st batchId filesProcessed currentFile errorArg =
        .error PyErr.zeroDivisionError) ∧
    get_processing_status st batchId = .error PyErr.zeroDivisionError := by
  constructor
  · intro fp cf ea
    unfold update_progress
    rw [h]
    dsimp only
    rw [show pyDiv fp task.totalFiles = .error PyErr.zeroDivisionError from by
      unfold pyDiv
      rw [if_pos hz]]
  · unfold get_processing_status
    rw [h]
    dsimp only
    rw [show pyDiv task.processedFiles task.totalFiles =
        .error PyErr.zeroDivisionError from by
      unfold pyDiv
      rw [if_pos hz]]

/-- Witness for C10 at the concrete zero-total registration. -/
theorem zero_total_division_witness :
    pmLookup pmZero "b" = some pmZeroTask ∧ pmZeroTask.totalFiles = 0 ∧
    ((∀ filesProcessed currentFile errorArg,
        update_progress pmZero "b" filesProcessed currentFile errorArg =
          .error PyErr.zeroDivisionError) ∧
      get_processing_status pmZero "b" = .error PyErr.zeroDivisionError) :=
  ⟨by decide, rfl, zero_total_division pmZero "b" pmZeroTask (by decide) rfl⟩

/-- Witness for C8 at a concrete registry whose handler always raises
and the concrete two-entry queue. -/
theorem handler_exception_contained_witness :
    processMessages agentsW qWitness =
      Except.ok (qWitness.map (dispatchOutcome agentsW)) :=
  handler_exception_contained agentsW qWitness

/-- Witness for C7 at a concrete step count. -/
theorem stop_on_empty_queue_never_returns_witness :
    (loopRun 5 stoppedIdleLoop).site ≠ LoopSite.exited :=
  stop_on_empty_queue_never_returns 5

/-- Witness for C9 at a concrete worker index. -/
theorem empty_batch_completed_witness :
    applyStep (initBatch "b0" [] 4) (BatchLabel.startWorker 0) = none :=
  empty_batch_completed.2.1 0

/-- Counterexample to C2 as stated: four MEDIUM-priority envelopes
enqueued within one clock tick carry equal datetime.now() readings, so
no pair is __lt__-comparable, and the heapq-level model dispatches
them as m1, m3, m2, m4 — m3 overtakes m2 although both have equal
priority and m2 was enqueued first.  Equal-priority dispatch order
therefore does not equal enqueue order. -/
theorem equal_priority_fifo_violation_cex :
    qTied.map (fun e => e.message.messageId) = ["m1", "m2", "m3", "m4"] ∧
    qTied.map (fun e => e.priority) = [2, 2, 2, 2] ∧
    qTied.map (fun e => e.timestamp) = [0, 0, 0, 0] ∧
    (heapDispatchOrder qTied).map (fun e => e.message.messageId) =
      ["m1", "m3", "m2", "m4"] :=
  ⟨by decide, by decide, by decide, by decide⟩

/-- On pairwise-comparable entries the heapq-level dispatch agrees
with the minimal-extraction model; checked on the concrete witness
queue with distinct readings. -/
theorem heap_matches_popMin_on_witness :
    heapDispatchOrder qWitness = dispatchOrder qWitness := by decide

end VedaBase
